import Mathlib

/-!
Verification of the batch-submission / response-parsing protocol of
`src/agents/cloud_resource_deviation_analyzer.py`
(class `CloudResourceDeviationAnalyzer`).

The embedding works over `List Char` for response texts.  Python's `json.loads`
is modelled by `jsonLoads`, the three `re` searches and the global fence
substitution of `_extract_json_from_text` are modelled by dedicated scanner
functions whose determinised behaviour is derived from the concrete patterns
(`\s*` runs followed by a mandatory non-whitespace literal never backtrack,
lazy `[\s\S]*?` groups take the shortest completion, alternatives are tried
left to right, `re.sub` consumes non-overlapping matches left to right).
All definitions are structurally recursive (explicit fuel where needed) so
that every witness evaluates by kernel reduction.
-/

/-- Python value produced by `json.loads`, as far as this code base observes
it: numeric literals are kept as their source lexemes (`1`, `2.5e3`, `NaN`,
`Infinity`, `-Infinity`); strings are the decoded lists of code points (so
that lone surrogates from `\uXXXX` escapes are representable); objects keep
their fields in Python `dict` insertion order with later duplicate keys
overwriting the stored value in place. -/
inductive JsonVal where
  | null
  | bool (b : Bool)
  | num (lexeme : List Char)
  | str (codes : List Nat)
  | arr (items : List JsonVal)
  | obj (fields : List (List Nat × JsonVal))

/-- Insertion into a Python `dict` built from parsed key/value pairs: a
duplicate key keeps its original position but receives the new value. -/
def objInsert : List (List Nat × JsonVal) → List Nat → JsonVal → List (List Nat × JsonVal)
  | [], k, v => [(k, v)]
  | (k0, v0) :: rest, k, v =>
      if k0 = k then (k, v) :: rest else (k0, v0) :: objInsert rest k v

/-- Lookup in a parsed object; because `objInsert` never produces duplicate
keys, first match is Python `dict` access. -/
def objGet : List (List Nat × JsonVal) → List Nat → Option JsonVal
  | [], _ => none
  | (k0, v0) :: rest, k => if k0 = k then some v0 else objGet rest k

/-- Code points of a Lean string, for building parsed-string literals. -/
def strCodes (s : String) : List Nat := s.data.map Char.toNat

/-- Whitespace recognised by Python's `json` module (`' '`, `'\t'`, `'\n'`,
`'\r'` only). -/
def isJsonWs (c : Char) : Bool := c == ' ' || c == '\t' || c == '\n' || c == '\r'

/-- Skip JSON whitespace. -/
def skipJsonWs (cs : List Char) : List Char := cs.dropWhile isJsonWs

/-- Value of a hexadecimal digit, as accepted by `\uXXXX` escapes. -/
def hexVal (c : Char) : Option Nat :=
  if '0' ≤ c ∧ c ≤ '9' then some (c.toNat - '0'.toNat)
  else if 'a' ≤ c ∧ c ≤ 'f' then some (c.toNat - 'a'.toNat + 10)
  else if 'A' ≤ c ∧ c ≤ 'F' then some (c.toNat - 'A'.toNat + 10)
  else none

/-- Decoder for the body of a JSON string (after the opening quote), as in
CPython's `py_scanstring` in strict mode: plain characters below `0x20` are
rejected, the eight simple escapes and `\uXXXX` are accepted, and a high
surrogate escape immediately followed by a low surrogate escape is combined;
a lone surrogate stays as its own code point.  Returns the decoded code
points and the input after the closing quote. -/
def parseJString : Nat → List Char → Except Unit (List Nat × List Char)
  | 0, _ => .error ()
  | _ + 1, [] => .error ()
  | fuel + 1, c :: rest =>
    if c = '"' then .ok ([], rest)
    else if c = '\\' then
      match rest with
      | '"' :: r => do let (cs, r') ← parseJString fuel r; .ok (34 :: cs, r')
      | '\\' :: r => do let (cs, r') ← parseJString fuel r; .ok (92 :: cs, r')
      | '/' :: r => do let (cs, r') ← parseJString fuel r; .ok (47 :: cs, r')
      | 'b' :: r => do let (cs, r') ← parseJString fuel r; .ok (8 :: cs, r')
      | 'f' :: r => do let (cs, r') ← parseJString fuel r; .ok (12 :: cs, r')
      | 'n' :: r => do let (cs, r') ← parseJString fuel r; .ok (10 :: cs, r')
      | 'r' :: r => do let (cs, r') ← parseJString fuel r; .ok (13 :: cs, r')
      | 't' :: r => do let (cs, r') ← parseJString fuel r; .ok (9 :: cs, r')
      | 'u' :: h1 :: h2 :: h3 :: h4 :: r =>
        match hexVal h1, hexVal h2, hexVal h3, hexVal h4 with
        | some a, some b, some c', some d =>
          let u := ((a * 16 + b) * 16 + c') * 16 + d
          if 0xD800 ≤ u ∧ u ≤ 0xDBFF then
            match r with
            | '\\' :: 'u' :: g1 :: g2 :: g3 :: g4 :: r2 =>
              match hexVal g1, hexVal g2, hexVal g3, hexVal g4 with
              | some a2, some b2, some c2, some d2 =>
                let u2 := ((a2 * 16 + b2) * 16 + c2) * 16 + d2
                if 0xDC00 ≤ u2 ∧ u2 ≤ 0xDFFF then do
                  let (cs, r') ← parseJString fuel r2
                  .ok ((0x10000 + ((u - 0xD800) * 1024 + (u2 - 0xDC00))) :: cs, r')
                else do
                  let (cs, r') ← parseJString fuel r
                  .ok (u :: cs, r')
              | _, _, _, _ => do let (cs, r') ← parseJString fuel r; .ok (u :: cs, r')
            | _ => do let (cs, r') ← parseJString fuel r; .ok (u :: cs, r')
          else do
            let (cs, r') ← parseJString fuel r
            .ok (u :: cs, r')
        | _, _, _, _ => .error ()
      | _ => .error ()
    else if c.toNat < 0x20 then .error ()
    else do
      let (cs, r') ← parseJString fuel rest
      .ok (c.toNat :: cs, r')

/-- Longest run of ASCII decimal digits at the head of the input. -/
def takeDigits (cs : List Char) : List Char × List Char :=
  (cs.takeWhile Char.isDigit, cs.dropWhile Char.isDigit)

/-- Number scanner following CPython's `NUMBER_RE`
`(-?(?:0|[1-9]\d*))(\.\d+)?([eE][-+]?\d+)?`: the match is maximal for that
grammar but leaves any remaining text (so `01` scans as `0` with `1` left
over, exactly as in Python).  The lexeme is returned unevaluated. -/
def scanNumber (cs : List Char) : Except Unit (List Char × List Char) :=
  let (sign, cs1) := match cs with
    | '-' :: r => (['-'], r)
    | _ => (([] : List Char), cs)
  match cs1 with
  | '0' :: r =>
      let (fr, r2) := match r with
        | '.' :: r' =>
          let (ds, rest') := takeDigits r'
          if ds.isEmpty then (([] : List Char), r) else ('.' :: ds, rest')
        | _ => (([] : List Char), r)
      let (ex, r3) := match r2 with
        | e :: r' =>
          if e = 'e' ∨ e = 'E' then
            match r' with
            | s :: r'' =>
              if s = '+' ∨ s = '-' then
                let (ds, rest') := takeDigits r''
                if ds.isEmpty then (([] : List Char), r2) else (e :: s :: ds, rest')
              else
                let (ds, rest') := takeDigits r'
                if ds.isEmpty then (([] : List Char), r2) else (e :: ds, rest')
            | [] => (([] : List Char), r2)
          else (([] : List Char), r2)
        | [] => (([] : List Char), r2)
      .ok (sign ++ '0' :: (fr ++ ex), r3)
  | c :: r =>
      if c.isDigit then
        let (ds, r1) := takeDigits r
        let intPart := c :: ds
        let (fr, r2) := match r1 with
          | '.' :: r' =>
            let (ds', rest') := takeDigits r'
            if ds'.isEmpty then (([] : List Char), r1) else ('.' :: ds', rest')
          | _ => (([] : List Char), r1)
        let (ex, r3) := match r2 with
          | e :: r' =>
            if e = 'e' ∨ e = 'E' then
              match r' with
              | s :: r'' =>
                if s = '+' ∨ s = '-' then
                  let (ds', rest') := takeDigits r''
                  if ds'.isEmpty then (([] : List Char), r2) else (e :: s :: ds', rest')
                else
                  let (ds', rest') := takeDigits r'
                  if ds'.isEmpty then (([] : List Char), r2) else (e :: ds', rest')
              | [] => (([] : List Char), r2)
            else (([] : List Char), r2)
          | [] => (([] : List Char), r2)
        .ok (sign ++ intPart ++ fr ++ ex, r3)
      else .error ()
  | [] => .error ()

/-- Parsing state of the recursive-descent scanner: a value is expected, or
the tail of an array (`,`/`]`) or of an object (`"key": value` pairs) is
being consumed with the elements parsed so far. -/
inductive ScanMode where
  | value
  | arrTail (acc : List JsonVal)
  | objTail (acc : List (List Nat × JsonVal))

/-- Scanner mirroring CPython's `scan_once`/`JSONArray`/`JSONObject`:
strings, objects, arrays, `true`/`false`/`null`, the Python constants
`NaN`/`Infinity`/`-Infinity`, and numbers; whitespace is skipped exactly
where the C decoder skips it.  Fuel only bounds recursion depth and is
chosen large enough at the entry point. -/
def scanJson : Nat → ScanMode → List Char → Except Unit (JsonVal × List Char)
  | 0, _, _ => .error ()
  | fuel + 1, .value, cs =>
    match cs with
    | '"' :: rest => do
        let (s, r) ← parseJString (rest.length + 1) rest
        .ok (.str s, r)
    | '{' :: rest =>
        let r1 := skipJsonWs rest
        match r1 with
        | '}' :: r2 => .ok (.obj [], r2)
        | _ => scanJson fuel (.objTail []) r1
    | '[' :: rest =>
        let r1 := skipJsonWs rest
        match r1 with
        | ']' :: r2 => .ok (.arr [], r2)
        | _ => do
            let (v, r2) ← scanJson fuel .value r1
            scanJson fuel (.arrTail [v]) r2
    | 't' :: 'r' :: 'u' :: 'e' :: rest => .ok (.bool true, rest)
    | 'f' :: 'a' :: 'l' :: 's' :: 'e' :: rest => .ok (.bool false, rest)
    | 'n' :: 'u' :: 'l' :: 'l' :: rest => .ok (.null, rest)
    | 'N' :: 'a' :: 'N' :: rest => .ok (.num ['N', 'a', 'N'], rest)
    | 'I' :: 'n' :: 'f' :: 'i' :: 'n' :: 'i' :: 't' :: 'y' :: rest =>
        .ok (.num ['I', 'n', 'f', 'i', 'n', 'i', 't', 'y'], rest)
    | '-' :: 'I' :: 'n' :: 'f' :: 'i' :: 'n' :: 'i' :: 't' :: 'y' :: rest =>
        .ok (.num ['-', 'I', 'n', 'f', 'i', 'n', 'i', 't', 'y'], rest)
    | _ => do
        let (lex, rest) ← scanNumber cs
        .ok (.num lex, rest)
  | fuel + 1, .arrTail acc, cs =>
    let r := skipJsonWs cs
    match r with
    | ',' :: r2 => do
        let (v, r3) ← scanJson fuel .value (skipJsonWs r2)
        scanJson fuel (.arrTail (acc ++ [v])) r3
    | ']' :: r2 => .ok (.arr acc, r2)
    | _ => .error ()
  | fuel + 1, .objTail acc, cs =>
    match cs with
    | '"' :: rest => do
        let (k, r1) ← parseJString (rest.length + 1) rest
        let r2 := skipJsonWs r1
        match r2 with
        | ':' :: r3 => do
            let (v, r4) ← scanJson fuel .value (skipJsonWs r3)
            let acc' := objInsert acc k v
            let r5 := skipJsonWs r4
            match r5 with
            | ',' :: r6 => scanJson fuel (.objTail acc') (skipJsonWs r6)
            | '}' :: r6 => .ok (.obj acc', r6)
            | _ => .error ()
        | _ => .error ()
    | _ => .error ()

/-- Model of Python `json.loads`: skip leading whitespace, scan one value,
skip trailing whitespace, and reject any extra data.  A raised
`JSONDecodeError` is the `.error` result. -/
def jsonLoads (cs : List Char) : Except Unit JsonVal :=
  match scanJson (2 * cs.length + 8) .value (skipJsonWs cs) with
  | .error _ => .error ()
  | .ok (v, rest) => if (skipJsonWs rest).isEmpty then .ok v else .error ()

/-- Whitespace recognised by `\s` in a Python `str` regular expression
(ASCII whitespace, the information separators, and the Unicode
`White_Space` code points). -/
def isPyWs (c : Char) : Bool :=
  let n := c.toNat
  n == 0x20 || (0x9 ≤ n && n ≤ 0xd) || (0x1c ≤ n && n ≤ 0x1f) ||
  n == 0x85 || n == 0xa0 || n == 0x1680 || (0x2000 ≤ n && n ≤ 0x200a) ||
  n == 0x2028 || n == 0x2029 || n == 0x202f || n == 0x205f || n == 0x3000

/-- Does the text begin with three backticks? -/
def startsWithTicks : List Char → Bool
  | '`' :: '`' :: '`' :: _ => true
  | _ => false

/-- One left-to-right pass of `re.sub(r'```(?:json)?\s*|\s*```', '', text)`:
at each position the first alternative (three backticks, an optional literal
`json`, then a maximal whitespace run) is tried before the second (a maximal
whitespace run followed by three backticks — shorter whitespace prefixes
cannot back the alternative because a backtick is not whitespace); on a
match the scan resumes after the consumed text, otherwise the character is
emitted. -/
def pyFenceSubAux : Nat → List Char → List Char
  | 0, _ => []
  | _ + 1, [] => []
  | fuel + 1, '`' :: '`' :: '`' :: rest =>
      let r1 := match rest with
        | 'j' :: 's' :: 'o' :: 'n' :: r => r
        | _ => rest
      pyFenceSubAux fuel (r1.dropWhile isPyWs)
  | fuel + 1, c :: rest =>
      if isPyWs c then
        let afterWs := (c :: rest).dropWhile isPyWs
        match afterWs with
        | '`' :: '`' :: '`' :: r => pyFenceSubAux fuel r
        | _ => c :: pyFenceSubAux fuel rest
      else c :: pyFenceSubAux fuel rest

/-- Model of `re.sub(r'```(?:json)?\s*|\s*```', '', text)`, the first
statement of `_extract_json_from_text`. -/
def pyFenceSub (cs : List Char) : List Char := pyFenceSubAux (cs.length + 1) cs

/-- Does the text contain three consecutive backticks anywhere? -/
def containsTicks : List Char → Bool
  | [] => false
  | c :: t => startsWithTicks (c :: t) || containsTicks t

/-- Close of the lazy group of `re.search(r'```json\s*([\s\S]*?)\s*```', t)`:
starting at the content, the shortest prefix after which `\s*```' matches
(a maximal whitespace run followed by three backticks — the greedy `\s*`
cannot backtrack onto a backtick).  Returns the group text. -/
def fencedCloseAux : Nat → List Char → Option (List Char)
  | 0, _ => none
  | _ + 1, [] => none
  | fuel + 1, c :: rest =>
      if startsWithTicks ((c :: rest).dropWhile isPyWs) then some []
      else (fencedCloseAux fuel rest).map (c :: ·)

/-- Attempt of the fenced-block pattern anchored at the current position:
the literal ```` ```json ````, then the greedy `\s*` (always maximal — any
completion with a shorter whitespace prefix extends to one with the maximal
prefix because the lazy group also accepts whitespace), then the group. -/
def tryFencedAt : List Char → Option (List Char)
  | '`' :: '`' :: '`' :: 'j' :: 's' :: 'o' :: 'n' :: rest =>
      let content := rest.dropWhile isPyWs
      if startsWithTicks content then some []
      else fencedCloseAux (content.length + 1) content
  | _ => none

/-- Leftmost search for the fenced pattern, trying each start position in
order as `re.search` does; returns `group(1)`. -/
def fencedSearchAux : Nat → List Char → Option (List Char)
  | 0, _ => none
  | _ + 1, [] => none
  | fuel + 1, c :: rest =>
      match tryFencedAt (c :: rest) with
      | some g => some g
      | none => fencedSearchAux fuel rest

/-- Model of `re.search(r'```json\s*([\s\S]*?)\s*```', text)` returning
`group(1)`. -/
def fencedSearch (cs : List Char) : Option (List Char) :=
  fencedSearchAux (cs.length + 1) cs

/-- Close of the lazy group of `\[\s*{[\s\S]*?}\s*\]`: number of characters
consumed from the content up to and including the first `}` that is followed
by a maximal whitespace run and `]`; earlier `}` characters not followed by
whitespace-then-`]` are absorbed by the lazy group. -/
def arrayCloseAux : Nat → List Char → Option Nat
  | 0, _ => none
  | _ + 1, [] => none
  | fuel + 1, c :: rest =>
      if c = '}' then
        let afterWs := rest.dropWhile isPyWs
        match afterWs with
        | ']' :: _ => some (1 + (rest.length - afterWs.length) + 1)
        | _ => (arrayCloseAux fuel rest).map (· + 1)
      else (arrayCloseAux fuel rest).map (· + 1)

/-- Attempt of the array-of-objects pattern `\[\s*{[\s\S]*?}\s*\]` anchored
at the current position; returns the length of the whole match (the greedy
`\s*` after `[` cannot backtrack because `{` is not whitespace). -/
def tryArrayAt : List Char → Option Nat
  | '[' :: rest =>
      let afterWs := rest.dropWhile isPyWs
      match afterWs with
      | '{' :: content =>
          match arrayCloseAux (content.length + 1) content with
          | some k => some (1 + (rest.length - afterWs.length) + 1 + k)
          | none => none
      | _ => none
  | _ => none

/-- Leftmost search for the array-of-objects pattern; returns `group(0)`. -/
def arraySearchAux : Nat → List Char → Option (List Char)
  | 0, _ => none
  | _ + 1, [] => none
  | fuel + 1, c :: rest =>
      match tryArrayAt (c :: rest) with
      | some k => some ((c :: rest).take k)
      | none => arraySearchAux fuel rest

/-- Model of `re.search(r'\[\s*{[\s\S]*?}\s*\]', text)` returning
`group(0)`. -/
def arraySearch (cs : List Char) : Option (List Char) :=
  arraySearchAux (cs.length + 1) cs

/-- Distance to the first `}` in the input, if any (the lazy group of
`{[\s\S]*?}` stops at the first closing brace). -/
def objCloseAux : Nat → List Char → Option Nat
  | 0, _ => none
  | _ + 1, [] => none
  | fuel + 1, c :: rest =>
      if c = '}' then some 0
      else (objCloseAux fuel rest).map (· + 1)

/-- Attempt of the bare-object pattern `{[\s\S]*?}` anchored at the current
position; returns the length of the whole match. -/
def tryObjAt : List Char → Option Nat
  | '{' :: rest => (objCloseAux (rest.length + 1) rest).map (· + 2)
  | _ => none

/-- Leftmost search for the bare-object pattern; returns `group(0)`. -/
def objSearchAux : Nat → List Char → Option (List Char)
  | 0, _ => none
  | _ + 1, [] => none
  | fuel + 1, c :: rest =>
      match tryObjAt (c :: rest) with
      | some k => some ((c :: rest).take k)
      | none => objSearchAux fuel rest

/-- Model of `re.search(r'{[\s\S]*?}', text)` returning `group(0)`. -/
def objSearch (cs : List Char) : Option (List Char) :=
  objSearchAux (cs.length + 1) cs

/-- Key `'results'` as code points. -/
def resultsKey : List Nat := strCodes "results"

/-- Candidate selection of `_extract_json_from_text` on the already
fence-stripped text: the fenced ```` ```json ```` block, else the first
array-of-objects fragment, else the first bare-object fragment, else the
whole text when it parses as JSON, else nothing (the code then returns the
empty list). -/
def candidateOf (stripped : List Char) : Option (List Char) :=
  match fencedSearch stripped with
  | some c => some c
  | none =>
    match arraySearch stripped with
    | some c => some c
    | none =>
      match objSearch stripped with
      | some c => some c
      | none =>
        match jsonLoads stripped with
        | .ok _ => some stripped
        | .error _ => none

/-- Final dispatch of `_extract_json_from_text` on the chosen candidate:
parse it; a list is returned verbatim, a mapping yields its `results` value
when the key is present and is wrapped in a one-element list otherwise, any
other shape or a parse error yields the empty list. -/
def parseCandidate (c : List Char) : JsonVal :=
  match jsonLoads c with
  | .ok (.arr xs) => .arr xs
  | .ok (.obj kvs) =>
      match objGet kvs resultsKey with
      | some v => v
      | none => .arr [.obj kvs]
  | .ok _ => .arr []
  | .error _ => .arr []

/-- Model of `_extract_json_from_text` (lines 593–658): strip the fence
markers globally, choose a candidate, and dispatch on its parse.  The
Python function's outer `try`/`except` and its two local handlers make it
total; every failure path is the empty list, here `.arr []`. -/
def extract_json_from_text (text : List Char) : JsonVal :=
  match candidateOf (pyFenceSub text) with
  | none => .arr []
  | some c => parseCandidate c

/-- Variant of the extractor with the fenced-block branch removed, built to
compare against `extract_json_from_text` for the refinement claim that the
fenced branch is dead code: the candidate comes from the bare array scan,
the bare object scan, or the whole-text parse only. -/
def candidateOfNoFence (stripped : List Char) : Option (List Char) :=
  match arraySearch stripped with
  | some c => some c
  | none =>
    match objSearch stripped with
    | some c => some c
    | none =>
      match jsonLoads stripped with
      | .ok _ => some stripped
      | .error _ => none

/-- The extractor with the fenced-block branch removed (see
`candidateOfNoFence`). -/
def extract_json_noFence (text : List Char) : JsonVal :=
  match candidateOfNoFence (pyFenceSub text) with
  | none => .arr []
  | some c => parseCandidate c

/-- Batch size hardcoded in `_process_batches_with_ai`
(`batch_size = 10`). -/
def batchSizeDefault : Nat := 10

/-- Partition loop of `_process_batches_with_ai`:
`for i in range(0, len(data), batch_size): data.iloc[i:i+batch_size]` —
each step takes the next `B` rows and continues on the remainder.  Fuel is
the row count, enough because each step consumes at least one row when
`0 < B`. -/
def makeBatchesAux : Nat → Nat → List α → List (List α)
  | 0, _, _ => []
  | _ + 1, _, [] => []
  | fuel + 1, B, x :: xs => (x :: xs).take B :: makeBatchesAux fuel B ((x :: xs).drop B)

/-- The list of batches produced by `_process_batches_with_ai` for the given
batch size. -/
def makeBatches (B : Nat) (xs : List α) : List (List α) :=
  makeBatchesAux xs.length B xs

/-- Fan-in loop of `_process_batches_with_ai`:
`for results in batch_results: if results: all_results.extend(results)` —
a left fold that appends each truthy (non-empty) batch result list. -/
def flattenBatchResults (brs : List (List β)) : List β :=
  brs.foldl (fun acc rs => if rs.isEmpty then acc else acc ++ rs) []

/-- Model of `_process_batches_async`: `asyncio.gather(*tasks,
return_exceptions=True)` delivers, in task order, either a raised exception
or that batch's result list; the subsequent loop replaces an exception by
`[]` and keeps any other result. -/
def processBatchesAsync (outcomes : List (Except ε (List β))) : List (List β) :=
  outcomes.map fun r =>
    match r with
    | .error _ => []
    | .ok rs => rs

/-- Default of the `max_retries` parameter in the definition of
`_call_ai_with_thread_and_run` (line 389: `max_retries=3`). -/
def callAiDefaultMaxRetries : Nat := 3

/-- Value passed for `max_retries` at the call site in
`_call_ai_for_analysis_async` (line 333: `max_retries=5`). -/
def callAiCallSiteMaxRetries : Nat := 5

/-- Fixed backoff in seconds slept in the exception handler of
`_call_ai_with_thread_and_run` (`time.sleep(2)`). -/
def retryBackoffSeconds : Nat := 2

/-- Observable events of one run of `_call_ai_with_thread_and_run`: an
attempt (thread creation, message post, run creation, polling) was made, or
`time.sleep(2)` was executed. -/
inductive RetryEvent where
  | attemptMade
  | sleptTwoSeconds
deriving DecidableEq

/-- Retry loop of `_call_ai_with_thread_and_run`.  `att rc` is the outcome
of the attempt made with retry counter `rc`: `.error` for a raised
exception anywhere in the attempt, `.ok result` for the list returned by
`_poll_for_completion`.  A truthy (non-empty) result is returned at once; an
empty result increments the counter and loops with no sleep; an exception
increments the counter and sleeps 2 seconds only if the new counter is
still below `max_retries`.  Falling out of the loop returns `[]`.  Fuel
equals `maxR` at the entry point, enough because the counter increases on
every iteration. -/
def callAiAux (att : Nat → Except Unit (List β)) (maxR : Nat) :
    Nat → Nat → List β × List RetryEvent
  | 0, _ => ([], [])
  | fuel + 1, rc =>
    if rc < maxR then
      match att rc with
      | .ok res =>
          if res.isEmpty then
            ((callAiAux att maxR fuel (rc + 1)).1,
              .attemptMade :: (callAiAux att maxR fuel (rc + 1)).2)
          else (res, [.attemptMade])
      | .error _ =>
          if rc + 1 < maxR then
            ((callAiAux att maxR fuel (rc + 1)).1,
              .attemptMade :: .sleptTwoSeconds :: (callAiAux att maxR fuel (rc + 1)).2)
          else
            ((callAiAux att maxR fuel (rc + 1)).1,
              .attemptMade :: (callAiAux att maxR fuel (rc + 1)).2)
    else ([], [])

/-- Model of `_call_ai_with_thread_and_run` (lines 389–459): the returned
result list together with the trace of attempts and backoff sleeps. -/
def call_ai_with_thread_and_run (att : Nat → Except Unit (List β)) (maxR : Nat) :
    List β × List RetryEvent :=
  callAiAux att maxR maxR 0

/-- Default of the `max_retries` parameter of `_poll_for_completion`
(line 490: `max_retries=30`). -/
def pollDefaultMaxRetries : Nat := 30

/-- Default of the `retry_interval` parameter of `_poll_for_completion`
(`retry_interval=2` seconds). -/
def pollDefaultRetryInterval : Nat := 2

/-- The terminal failure statuses of `_poll_for_completion`
(`run_status.status in ["failed", "cancelled", "expired"]`). -/
def isTerminalFailure (s : String) : Bool :=
  s == "failed" || s == "cancelled" || s == "expired"

/-- Polling loop of `_poll_for_completion`.  `statusAt i` is the status
fetched by the `i`-th `runs.get` call (`.error` models a raised exception,
handled by the loop's `except` branch which also counts one retry).  On
`"completed"` the messages are fetched and extracted — abstracted as the
parameter `onCompleted`; on a terminal failure status the loop returns `[]`
at once; on any other status it sleeps and polls again; exhausting the
bound returns `[]` (timeout).  The second component of the result counts
the `runs.get` calls that were issued. -/
def pollAux (statusAt : Nat → Except Unit String) (onCompleted : List β) (maxR : Nat) :
    Nat → Nat → List β × Nat
  | 0, _ => ([], 0)
  | fuel + 1, rc =>
    if rc < maxR then
      match statusAt rc with
      | .error _ =>
          ((pollAux statusAt onCompleted maxR fuel (rc + 1)).1,
            (pollAux statusAt onCompleted maxR fuel (rc + 1)).2 + 1)
      | .ok s =>
          if s = "completed" then (onCompleted, 1)
          else if isTerminalFailure s then ([], 1)
          else
            ((pollAux statusAt onCompleted maxR fuel (rc + 1)).1,
              (pollAux statusAt onCompleted maxR fuel (rc + 1)).2 + 1)
    else ([], 0)

/-- Model of `_poll_for_completion` (lines 490–537). -/
def poll_for_completion (statusAt : Nat → Except Unit String) (onCompleted : List β)
    (maxR : Nat) : List β × Nat :=
  pollAux statusAt onCompleted maxR maxR 0

/-- One row of `_prepare_data_for_analysis`'s output frame. -/
structure SummaryRow where
  systemName : String
  environmentTypes : List String
  hasDEV : Bool
  hasTEST : Bool
  hasPROD : Bool
deriving DecidableEq

/-- First-occurrence-preserving deduplication, the behaviour of
`pandas.Series.unique`; `seen` accumulates the values already emitted. -/
def pdUniqueAux [DecidableEq α] (seen : List α) : List α → List α
  | [] => []
  | x :: xs =>
      if x ∈ seen then pdUniqueAux seen xs
      else x :: pdUniqueAux (x :: seen) xs

/-- Behaviour of pandas `unique`: distinct values in order of first
appearance. -/
def pdUnique [DecidableEq α] (xs : List α) : List α := pdUniqueAux [] xs

/-- Model of `_prepare_data_for_analysis` (lines 194–225): rows are
`(System Name, Environment Type)` pairs; for each distinct system name (in
order of first appearance) the distinct environment types of its rows are
collected and the three presence flags are computed by list membership
(`'DEV' in environment_types`, …). -/
def prepare_data_for_analysis (rows : List (String × String)) : List SummaryRow :=
  (pdUnique (rows.map Prod.fst)).map fun sys =>
    let types := pdUnique ((rows.filter fun r => decide (r.1 = sys)).map Prod.snd)
    { systemName := sys
      environmentTypes := types
      hasDEV := decide ("DEV" ∈ types)
      hasTEST := decide ("TEST" ∈ types)
      hasPROD := decide ("PROD" ∈ types) }

/-- One row of the classification-result frame
(`System_Name`, `Cloud_Config`, `Reason`). -/
structure ResultRow where
  systemName : String
  cloudConfig : String
  reason : String
deriving DecidableEq

/-- A metadata value: the `Value` column of the metadata sheet holds strings
and record counts. -/
inductive MetaValue where
  | strVal (s : String)
  | natVal (n : Nat)
deriving DecidableEq

/-- Model of `_create_metadata` (lines 707–755): the record counts are
computed over the analysis-result rows (`total_records` is
`len(self.analysis_results)`), and the key/value rows are emitted in the
fixed documented order.  The empty-results branch of the code produces the
same all-zero counts as the direct computation. -/
def create_metadata (results : List ResultRow) (userName timestamp inputFileName : String) :
    List (String × MetaValue) :=
  let total := results.length
  let exceptions := (results.filter fun r => decide (r.cloudConfig = "Deviation")).length
  let oks := (results.filter fun r => decide (r.cloudConfig = "OK")).length
  let unknowns := total - exceptions - oks
  [("user", .strVal userName),
   ("report_timestamp", .strVal timestamp),
   ("generated_by", .strVal "CloudResourceDeviationAnalyzer"),
   ("source_population_file", .strVal inputFileName),
   ("total_records_analyzed", .natVal total),
   ("exception_records", .natVal exceptions),
   ("ok_records", .natVal oks),
   ("unknown_records", .natVal unknowns),
   ("environment", .strVal "Development")]

/-- A sheet of the output workbook. -/
inductive Sheet where
  | inventory (rows : List (String × String))
  | analysis (rows : List ResultRow)
  | metadata (kvs : List (String × MetaValue))

/-- Model of `save_analysis_results` (lines 660–705): `None` when the
analysis results are empty, when no input file is recorded (`not
self.input_file` is also true for an empty path string), or when every cell
of the loaded input data is falsy (`not self.cloud_data.any().any()`);
otherwise the workbook with its three named sheets, the metadata built by
`_create_metadata`.  `os.path.basename` is left abstract: the recorded
input file name string is passed through. -/
def save_analysis_results (cloudData : List (String × String)) (results : List ResultRow)
    (inputFile : Option String) (userName timestamp : String) :
    Option (List (String × Sheet)) :=
  if results.isEmpty then none
  else
    match inputFile with
    | none => none
    | some f =>
      if f = "" then none
      else if cloudData.all fun r => r.1 = "" ∧ r.2 = "" then none
      else
        some [("Cloud_Resource_Inventory", .inventory cloudData),
              ("Cloud_Resource_Deviation_Analysis", .analysis results),
              ("Metadata", .metadata (create_metadata results userName timestamp f))]

/-- Lookup of a key in the metadata sheet. -/
def metaLookup (kvs : List (String × MetaValue)) (k : String) : Option MetaValue :=
  (kvs.find? fun p => p.1 == k).map Prod.snd

/-- Predicate for the two response shapes the final dispatch accepts
(`isinstance(ai_response, list)` / `isinstance(ai_response, dict)`). -/
def jsonIsListOrMapping : JsonVal → Bool
  | .arr _ => true
  | .obj _ => true
  | _ => false

/-- Response text for the C1 counterexample: prose containing the
decorative bracket-brace fragment `[ {draft} ]` before a fenced JSON array
block. -/
def c1Text : String := "See [ \x7bdraft\x7d ] ok ```json\n[\x7b\"a\": 1\x7d]\n```"

/-- Interior of the fenced block of `c1Text`. -/
def c1Inner : String := "[\x7b\"a\": 1\x7d]"

/-- The records of the fenced array of `c1Text`. -/
def c1Records : List JsonVal := [.obj [(strCodes "a", .num ['1'])]]

/-- C1 is false as stated: `c1Text` contains a fenced ```` ```json ````
block whose interior is the valid JSON array `[{"a": 1}]`, yet the
extractor returns the empty list, not that array's records — the global
fence-stripping runs first, so the array scan matches the decorative
`[ {draft} ]` fragment of the prose, which fails to parse. -/
theorem c1_counterexample :
    c1Text.data
      = "See [ \x7bdraft\x7d ] ok ".data ++ "```json\n".data ++ c1Inner.data ++ "\n```".data
    ∧ jsonLoads c1Inner.data = .ok (.arr c1Records)
    ∧ extract_json_from_text c1Text.data = .arr []
    ∧ JsonVal.arr [] ≠ .arr c1Records := by
  refine ⟨rfl, rfl, rfl, ?_⟩
  simp [c1Records]

/-- C1 (amended): the fence markers having been stripped first, the
fenced-block search finds nothing, and the extractor still returns a fenced
array's records in two situations — when the bare array-of-objects scan
over the stripped text recovers a fragment that parses as that array, and
when none of the scans matches anything and the whole stripped text parses
as that array (a fenced array of non-objects with no surrounding prose). -/
theorem extractor_fenced_array_via_scan :
    ∀ (text : List Char) (records : List JsonVal),
      fencedSearch (pyFenceSub text) = none →
      (∀ inner, arraySearch (pyFenceSub text) = some inner →
          jsonLoads inner = .ok (.arr records) →
          extract_json_from_text text = .arr records)
      ∧ (arraySearch (pyFenceSub text) = none →
          objSearch (pyFenceSub text) = none →
          jsonLoads (pyFenceSub text) = .ok (.arr records) →
          extract_json_from_text text = .arr records) := by
  intro text records hf
  constructor
  · intro inner ha hj
    simp only [extract_json_from_text, candidateOf, hf, ha, parseCandidate, hj]
  · intro ha ho hw
    simp only [extract_json_from_text, candidateOf, hf, ha, ho, hw, parseCandidate]

/-- Response text for the C1 witness, scan route: surrounding prose without
brackets, braces or backticks. -/
def c1wText : String := "Here are the records ```json\n[\x7b\"a\": 1\x7d]\n``` thanks"

/-- Response text for the C1 witness, whole-text route: a fenced array of
non-objects with no surrounding prose, which no scan matches after
stripping. -/
def c1wBare : String := "```json\n[1, 2]\n```"

/-- Witness for the amended C1: the scan route on prose around an array of
objects, and the whole-text route on a bare fenced array of numbers. -/
theorem c1_witness :
    (fencedSearch (pyFenceSub c1wText.data) = none
      ∧ arraySearch (pyFenceSub c1wText.data) = some c1Inner.data
      ∧ jsonLoads c1Inner.data = .ok (.arr c1Records)
      ∧ extract_json_from_text c1wText.data = .arr c1Records)
    ∧ (fencedSearch (pyFenceSub c1wBare.data) = none
      ∧ arraySearch (pyFenceSub c1wBare.data) = none
      ∧ objSearch (pyFenceSub c1wBare.data) = none
      ∧ jsonLoads (pyFenceSub c1wBare.data) = .ok (.arr [.num ['1'], .num ['2']])
      ∧ extract_json_from_text c1wBare.data = .arr [.num ['1'], .num ['2']]) :=
  ⟨⟨rfl, rfl, rfl,
      (extractor_fenced_array_via_scan c1wText.data c1Records rfl).1 _ rfl rfl⟩,
   ⟨rfl, rfl, rfl, rfl,
      (extractor_fenced_array_via_scan c1wBare.data [.num ['1'], .num ['2']] rfl).2
        rfl rfl rfl⟩⟩

/-- C2: the extractor is total — modelled as a total function whose every
failure path yields `.arr []` — and both failure modes, no recognisable
candidate and a candidate that fails to parse, return the empty list. -/
theorem extractor_total_failures_empty :
    ∀ text : List Char,
      (candidateOf (pyFenceSub text) = none → extract_json_from_text text = .arr [])
      ∧ ∀ c, candidateOf (pyFenceSub text) = some c → jsonLoads c = .error () →
          extract_json_from_text text = .arr [] := by
  intro text
  refine ⟨fun h => ?_, fun c hc hj => ?_⟩
  · simp only [extract_json_from_text, h]
  · simp only [extract_json_from_text, hc, parseCandidate, hj]

/-- Witness for C2 on text with no recognisable JSON shape. -/
theorem c2_witness :
    candidateOf (pyFenceSub "This is not JSON".data) = none
    ∧ extract_json_from_text "This is not JSON".data = .arr [] :=
  ⟨rfl, (extractor_total_failures_empty "This is not JSON".data).1 rfl⟩

/-- C3: once a candidate is chosen, the dispatch on its parse returns a
list verbatim, the `results` value of a mapping containing that key, a
mapping without it wrapped in a one-element list, and the empty list for
any other parsed shape or a parse error. -/
theorem extractor_candidate_dispatch :
    ∀ (text c : List Char),
      candidateOf (pyFenceSub text) = some c →
      (∀ xs, jsonLoads c = .ok (.arr xs) → extract_json_from_text text = .arr xs)
      ∧ (∀ kvs v, jsonLoads c = .ok (.obj kvs) → objGet kvs resultsKey = some v →
          extract_json_from_text text = v)
      ∧ (∀ kvs, jsonLoads c = .ok (.obj kvs) → objGet kvs resultsKey = none →
          extract_json_from_text text = .arr [.obj kvs])
      ∧ (∀ v, jsonLoads c = .ok v → jsonIsListOrMapping v = false →
          extract_json_from_text text = .arr [])
      ∧ (jsonLoads c = .error () → extract_json_from_text text = .arr []) := by
  intro text c hc
  refine ⟨fun xs hj => ?_, fun kvs v hj hg => ?_, fun kvs hj hg => ?_,
    fun v hj hshape => ?_, fun hj => ?_⟩
  · simp only [extract_json_from_text, hc, parseCandidate, hj]
  · simp only [extract_json_from_text, hc, parseCandidate, hj, hg]
  · simp only [extract_json_from_text, hc, parseCandidate, hj, hg]
  · cases v with
    | null => simp only [extract_json_from_text, hc, parseCandidate, hj]
    | bool b => simp only [extract_json_from_text, hc, parseCandidate, hj]
    | num l => simp only [extract_json_from_text, hc, parseCandidate, hj]
    | str s => simp only [extract_json_from_text, hc, parseCandidate, hj]
    | arr xs => simp [jsonIsListOrMapping] at hshape
    | obj kvs => simp [jsonIsListOrMapping] at hshape
  · simp only [extract_json_from_text, hc, parseCandidate, hj]

/-- Response text for the C3 witness: a mapping with a `results` key. -/
def c3Text : String := "\x7b\"results\": [1, 2]\x7d"

/-- Witness for C3: the mapping's `results` value is returned. -/
theorem c3_witness :
    candidateOf (pyFenceSub c3Text.data) = some c3Text.data
    ∧ jsonLoads c3Text.data = .ok (.obj [(resultsKey, .arr [.num ['1'], .num ['2']])])
    ∧ extract_json_from_text c3Text.data = .arr [.num ['1'], .num ['2']] :=
  ⟨rfl, rfl,
    (extractor_candidate_dispatch c3Text.data c3Text.data rfl).2.1 _ _ rfl rfl⟩

/-- The batches concatenate back to the input: the partition is
order-preserving and consecutive. -/
theorem makeBatchesAux_flatten {α : Type} :
    ∀ (fuel B : Nat) (xs : List α), xs.length ≤ fuel → 0 < B →
      (makeBatchesAux fuel B xs).flatten = xs := by
  intro fuel
  induction fuel with
  | zero =>
      intro B xs hlen _
      have : xs = [] := List.eq_nil_of_length_eq_zero (Nat.le_zero.mp hlen)
      subst this
      rfl
  | succ n ih =>
      intro B xs hlen hB
      cases xs with
      | nil => rfl
      | cons x t =>
          have hdrop : ((x :: t).drop B).length ≤ n := by
            rw [List.length_drop]
            simp only [List.length_cons] at hlen ⊢
            omega
          simp only [makeBatchesAux, List.flatten_cons, ih B _ hdrop hB,
            List.take_append_drop]

/-- The number of batches is the ceiling of `N / B`. -/
theorem makeBatchesAux_length {α : Type} :
    ∀ (fuel B : Nat) (xs : List α), xs.length ≤ fuel → 0 < B →
      (makeBatchesAux fuel B xs).length = (xs.length + B - 1) / B := by
  intro fuel
  induction fuel with
  | zero =>
      intro B xs hlen hB
      have : xs = [] := List.eq_nil_of_length_eq_zero (Nat.le_zero.mp hlen)
      subst this
      simp [makeBatchesAux, Nat.div_eq_of_lt (show B - 1 < B by omega)]
  | succ n ih =>
      intro B xs hlen hB
      cases xs with
      | nil => simp [makeBatchesAux, Nat.div_eq_of_lt (show B - 1 < B by omega)]
      | cons x t =>
          have hdrop : ((x :: t).drop B).length ≤ n := by
            rw [List.length_drop]
            simp only [List.length_cons] at hlen ⊢
            omega
          have hrec := ih B ((x :: t).drop B) hdrop hB
          simp only [makeBatchesAux, List.length_cons, hrec, List.length_drop,
            List.length_cons]
          rcases Nat.lt_or_ge t.length (B - 1) with hlt | hge
          · have h0 : t.length + 1 - B = 0 := by omega
            rw [h0]
            rw [Nat.div_eq_of_lt (show 0 + B - 1 < B by omega)]
            have h1 : t.length + 1 + B - 1 = t.length + B := by omega
            rw [h1, Nat.div_eq_of_lt_le (by omega : 1 * B ≤ t.length + B)
              (by omega : t.length + B < (1 + 1) * B)]
          · have h2 : t.length + 1 - B + B - 1 = t.length := by omega
            have h3 : t.length + 1 + B - 1 = t.length + B := by omega
            rw [h2, h3, Nat.add_div_right _ hB]

/-- The fan-in fold of `_process_batches_with_ai` concatenates the batch
result lists in order: skipping the falsy (empty) lists does not change the
concatenation. -/
theorem flattenBatchResults_eq_flatten {β : Type} (brs : List (List β)) :
    flattenBatchResults brs = brs.flatten := by
  have aux : ∀ (l : List (List β)) (acc : List β),
      l.foldl (fun acc rs => if rs.isEmpty then acc else acc ++ rs) acc
        = acc ++ l.flatten := by
    intro l
    induction l with
    | nil => intro acc; simp
    | cons rs t iht =>
        intro acc
        cases rs with
        | nil => simp [iht]
        | cons y ys => simp [iht, List.append_assoc]
  simpa using aux brs []

/-- C4: for every input and positive batch size (the code fixes 10), the
Batch Scheduler partitions the input order-preservingly into `⌈N / B⌉`
consecutive batches, and when every batch call classifies exactly its
batch's entries in order, the flattened return is the classification of all
`N` entries in the original order. -/
theorem batch_scheduler_partition :
    ∀ (α β : Type) (B : Nat) (xs : List α) (f : α → β), 0 < B →
      batchSizeDefault = 10
      ∧ (makeBatches B xs).length = (xs.length + B - 1) / B
      ∧ (makeBatches B xs).flatten = xs
      ∧ flattenBatchResults ((makeBatches B xs).map (List.map f)) = xs.map f := by
  intro α β B xs f hB
  refine ⟨rfl, makeBatchesAux_length _ _ _ le_rfl hB,
    makeBatchesAux_flatten _ _ _ le_rfl hB, ?_⟩
  rw [flattenBatchResults_eq_flatten, ← List.map_flatten]
  simp only [makeBatches]
  rw [makeBatchesAux_flatten _ _ _ le_rfl hB]

/-- Witness for C4 with 12 entries and batch size 10. -/
theorem c4_witness :
    (0 : Nat) < 10
    ∧ (batchSizeDefault = 10
      ∧ (makeBatches 10 (List.range 12)).length = (12 + 10 - 1) / 10
      ∧ (makeBatches 10 (List.range 12)).flatten = List.range 12
      ∧ flattenBatchResults ((makeBatches 10 (List.range 12)).map
          (List.map (· + 1))) = (List.range 12).map (· + 1)) := by
  refine ⟨by decide, ?_⟩
  have h := batch_scheduler_partition Nat Nat 10 (List.range 12) (· + 1) (by decide)
  simpa using h

/-- C5: a batch task that raises contributes the empty list in its slot, the
sibling batches' result lists all stay in place in batch order, and in the
final merged list the failing batch simply contributes nothing between its
siblings' results; when no task raises, every batch's list is kept. -/
theorem batch_failure_isolated :
    ∀ (β ε : Type) (pre post : List (Except ε (List β))) (e : ε),
      processBatchesAsync (pre ++ .error e :: post)
        = processBatchesAsync pre ++ [] :: processBatchesAsync post
      ∧ flattenBatchResults (processBatchesAsync (pre ++ .error e :: post))
        = flattenBatchResults (processBatchesAsync pre)
          ++ flattenBatchResults (processBatchesAsync post)
      ∧ ∀ rss : List (List β),
          processBatchesAsync (rss.map (Except.ok : List β → Except ε (List β))) = rss := by
  intro β ε pre post e
  refine ⟨by simp [processBatchesAsync], ?_, ?_⟩
  · simp [processBatchesAsync, flattenBatchResults_eq_flatten]
  · intro rss
    simp only [processBatchesAsync, List.map_map]
    exact List.map_id rss

/-- Witness for C5: three batches, the middle one raising. -/
theorem c5_witness :
    processBatchesAsync ([Except.ok [1]] ++ .error () :: [Except.ok [2]] :
        List (Except Unit (List Nat)))
      = [[1], [], [2]]
    ∧ flattenBatchResults (processBatchesAsync ([Except.ok [1]] ++ .error () :: [Except.ok [2]] :
        List (Except Unit (List Nat))))
      = [1, 2] := by
  have h := batch_failure_isolated Nat Unit [Except.ok [1]] [Except.ok [2]] ()
  exact ⟨by rw [h.1]; rfl, by rw [h.2.1]; rfl⟩

/-- Events expected of `_call_ai_with_thread_and_run` from retry counter
`rc` on, when every remaining attempt fails: one attempt per counter value,
followed by a backoff sleep exactly when that attempt raised and was not
the last one. -/
def expectedRetryTraceFrom (att : Nat → Except Unit (List Nat)) (maxR rc : Nat) :
    List RetryEvent :=
  ((List.range' rc (maxR - rc)).map fun i =>
    match att i with
    | .error _ =>
        if i + 1 < maxR then [RetryEvent.attemptMade, RetryEvent.sleptTwoSeconds]
        else [RetryEvent.attemptMade]
    | .ok _ => [RetryEvent.attemptMade]).flatten

/-- Exhaustion behaviour of the retry loop, generalised over the starting
counter. -/
theorem callAiAux_exhaust (att : Nat → Except Unit (List Nat)) (maxR : Nat) :
    ∀ (fuel rc : Nat), maxR - rc ≤ fuel →
      (∀ i, rc ≤ i → i < maxR → att i = .error () ∨ att i = .ok []) →
      callAiAux att maxR fuel rc = ([], expectedRetryTraceFrom att maxR rc) := by
  intro fuel
  induction fuel with
  | zero =>
      intro rc hfuel _
      have h0 : maxR - rc = 0 := Nat.le_zero.mp hfuel
      simp [callAiAux, expectedRetryTraceFrom, h0]
  | succ n ih =>
      intro rc hfuel hall
      by_cases hrc : rc < maxR
      · have hsplit : maxR - rc = (maxR - (rc + 1)) + 1 := by omega
        have hrange : List.range' rc (maxR - rc)
            = rc :: List.range' (rc + 1) (maxR - (rc + 1)) := by
          rw [hsplit, List.range'_succ]
        have hihyp : ∀ i, rc + 1 ≤ i → i < maxR → att i = .error () ∨ att i = .ok [] :=
          fun i h1 h2 => hall i (by omega) h2
        have hrec := ih (rc + 1) (by omega) hihyp
        rcases hall rc le_rfl hrc with herr | hok
        · by_cases hlast : rc + 1 < maxR
          · simp only [callAiAux, if_pos hrc, herr, if_pos hlast, hrec,
              expectedRetryTraceFrom, hrange, List.map_cons, List.flatten_cons]
            simp
          · have hempty : maxR - (rc + 1) = 0 := by omega
            simp only [callAiAux, if_pos hrc, herr, if_neg hlast, hrec,
              expectedRetryTraceFrom, hrange, List.map_cons, List.flatten_cons,
              hempty, List.range'_zero, List.map_nil, List.flatten_nil,
              List.append_nil]
        · simp only [callAiAux, if_pos hrc, hok, List.isEmpty_nil, if_pos, hrec,
            expectedRetryTraceFrom, hrange, List.map_cons, List.flatten_cons]
          simp
      · have h0 : maxR - rc = 0 := by omega
        simp [callAiAux, if_neg hrc, expectedRetryTraceFrom, h0]

/-- C6 is false as stated: with every attempt's polling returning the empty
result, the loop retries with no backoff sleep at all (the `time.sleep(2)`
sits only in the exception handler), and the function's own `max_retries`
default is 3, not 5 (the call site passes 5 explicitly). -/
theorem c6_counterexample :
    call_ai_with_thread_and_run (fun _ => Except.ok ([] : List Nat)) 2
      = ([], [RetryEvent.attemptMade, RetryEvent.attemptMade])
    ∧ RetryEvent.sleptTwoSeconds ∉ [RetryEvent.attemptMade, RetryEvent.attemptMade]
    ∧ callAiDefaultMaxRetries ≠ 5 := by
  exact ⟨rfl, by decide, by decide⟩

/-- C6 (amended): an attempt that raises increments the counter and sleeps
the 2-second backoff exactly when it was not the final attempt; an attempt
whose polling returns empty increments the counter and retries immediately
with no sleep; every retry restarts from thread creation; the bound is
`max_retries` (the call site passes 5, the function's own default is 3);
exhausting all attempts returns the empty list without raising. -/
theorem call_ai_retry_behaviour :
    ∀ (att : Nat → Except Unit (List Nat)) (maxR : Nat),
      (∀ i, i < maxR → att i = .error () ∨ att i = .ok []) →
      callAiDefaultMaxRetries = 3
      ∧ callAiCallSiteMaxRetries = 5
      ∧ retryBackoffSeconds = 2
      ∧ call_ai_with_thread_and_run att maxR = ([], expectedRetryTraceFrom att maxR 0) := by
  intro att maxR hall
  refine ⟨rfl, rfl, rfl, ?_⟩
  exact callAiAux_exhaust att maxR maxR 0 (by omega) fun i _ h2 => hall i h2

/-- Witness for the amended C6: two raising attempts sleep once (after the
first), exhausting retries yields the empty list. -/
theorem c6_witness :
    (∀ i, i < 2 → (fun _ => (Except.error () : Except Unit (List Nat))) i = .error ()
        ∨ (fun _ => (Except.error () : Except Unit (List Nat))) i = .ok [])
    ∧ call_ai_with_thread_and_run (fun _ => (Except.error () : Except Unit (List Nat))) 2
        = ([], expectedRetryTraceFrom (fun _ => .error ()) 2 0)
    ∧ expectedRetryTraceFrom (fun _ => (Except.error () : Except Unit (List Nat))) 2 0
        = [RetryEvent.attemptMade, RetryEvent.sleptTwoSeconds, RetryEvent.attemptMade] := by
  refine ⟨fun i _ => Or.inl rfl, ?_, rfl⟩
  exact (call_ai_retry_behaviour (fun _ => .error ()) 2 (fun i _ => Or.inl rfl)).2.2.2

/-- A terminal failure status is not `"completed"` and triggers the abort
branch of the polling loop. -/
theorem isTerminalFailure_ne_completed (s : String) (h : isTerminalFailure s = true) :
    ¬ s = "completed" := by
  simp only [isTerminalFailure, Bool.or_eq_true, beq_iff_eq] at h
  rcases h with (h | h) | h <;> subst h <;> decide

/-- Abort behaviour of the polling loop, generalised over the starting
counter: the first terminal status observed at poll `j` ends the loop at
once with the empty result, after exactly `j + 1 - rc` further `runs.get`
calls. -/
theorem pollAux_terminal (statusAt : Nat → Except Unit String) (onCompleted : List Nat)
    (maxR : Nat) :
    ∀ (fuel rc j : Nat) (s : String), rc ≤ j → j < maxR → maxR - rc ≤ fuel →
      statusAt j = .ok s → isTerminalFailure s = true →
      (∀ i, rc ≤ i → i < j →
        ∃ u, statusAt i = .ok u ∧ u ≠ "completed" ∧ isTerminalFailure u = false) →
      pollAux statusAt onCompleted maxR fuel rc = ([], j + 1 - rc) := by
  intro fuel
  induction fuel with
  | zero =>
      intro rc j s h1 h2 hfuel _ _ _
      omega
  | succ n ih =>
      intro rc j s h1 h2 hfuel hterm hfail hmid
      have hrc : rc < maxR := by omega
      rcases Nat.eq_or_lt_of_le h1 with heq | hlt
      · subst heq
        simp only [pollAux, if_pos hrc, hterm,
          if_neg (isTerminalFailure_ne_completed s hfail), if_pos hfail,
          Prod.mk.injEq]
        exact ⟨trivial, by omega⟩
      · obtain ⟨u, hu, hunc, hunt⟩ := hmid rc le_rfl hlt
        have hrec := ih (rc + 1) j s (by omega) h2 (by omega) hterm hfail
          (fun i hi1 hi2 => hmid i (by omega) hi2)
        simp only [pollAux, if_pos hrc, hu]
        rw [if_neg hunc, if_neg (by simp [hunt] : ¬ isTerminalFailure u = true), hrec]
        simp only [Prod.mk.injEq]
        exact ⟨trivial, by omega⟩

/-- Timeout behaviour of the polling loop, generalised over the starting
counter: when no poll ever observes `"completed"` or a terminal status, the
loop runs out its bound and returns the empty result. -/
theorem pollAux_timeout (statusAt : Nat → Except Unit String) (onCompleted : List Nat)
    (maxR : Nat) :
    ∀ (fuel rc : Nat), maxR - rc ≤ fuel →
      (∀ i, rc ≤ i → i < maxR →
        ∃ u, statusAt i = .ok u ∧ u ≠ "completed" ∧ isTerminalFailure u = false) →
      pollAux statusAt onCompleted maxR fuel rc = ([], maxR - rc) := by
  intro fuel
  induction fuel with
  | zero =>
      intro rc hfuel _
      have h0 : maxR - rc = 0 := Nat.le_zero.mp hfuel
      simp [pollAux, h0]
  | succ n ih =>
      intro rc hfuel hmid
      by_cases hrc : rc < maxR
      · obtain ⟨u, hu, hunc, hunt⟩ := hmid rc le_rfl hrc
        have hrec := ih (rc + 1) (by omega) (fun i hi1 hi2 => hmid i (by omega) hi2)
        simp only [pollAux, if_pos hrc, hu]
        rw [if_neg hunc, if_neg (by simp [hunt] : ¬ isTerminalFailure u = true), hrec]
        simp only [Prod.mk.injEq]
        exact ⟨trivial, by omega⟩
      · have h0 : maxR - rc = 0 := by omega
        simp [pollAux, if_neg hrc, h0]

/-- C7: a poll that observes a terminal status (`failed`, `cancelled`,
`expired`) after only non-terminal, non-completed observations returns the
empty list immediately — the `runs.get` issued on that poll is the last —
and a run whose status never leaves a non-terminal, non-completed state
across all poll attempts (the parameter defaults to 30, at a 2-second
interval) returns the empty list without raising. -/
theorem poll_terminal_and_timeout :
    ∀ (statusAt : Nat → Except Unit String) (onCompleted : List Nat) (maxR : Nat),
      pollDefaultMaxRetries = 30
      ∧ pollDefaultRetryInterval = 2
      ∧ (∀ j s, j < maxR → statusAt j = .ok s → isTerminalFailure s = true →
          (∀ i, i < j →
            ∃ u, statusAt i = .ok u ∧ u ≠ "completed" ∧ isTerminalFailure u = false) →
          poll_for_completion statusAt onCompleted maxR = ([], j + 1))
      ∧ ((∀ i, i < maxR →
            ∃ u, statusAt i = .ok u ∧ u ≠ "completed" ∧ isTerminalFailure u = false) →
          poll_for_completion statusAt onCompleted maxR = ([], maxR)) := by
  intro statusAt onCompleted maxR
  refine ⟨rfl, rfl, fun j s hj hterm hfail hmid => ?_, fun hmid => ?_⟩
  · have h := pollAux_terminal statusAt onCompleted maxR maxR 0 j s (by omega) hj
      (by omega) hterm hfail (fun i _ hi2 => hmid i hi2)
    simpa using h
  · have h := pollAux_timeout statusAt onCompleted maxR maxR 0 (by omega)
      (fun i _ hi2 => hmid i hi2)
    simpa using h

/-- Witness for C7: a run that stays `in_progress` once and then reports
`failed` stops after its second poll; a run that stays `in_progress` for
all 30 polls times out with the empty result. -/
theorem c7_witness :
    poll_for_completion (fun i => if i = 0 then .ok "in_progress" else .ok "failed")
        ([3] : List Nat) 30 = ([], 2)
    ∧ poll_for_completion (fun _ => .ok "in_progress") ([3] : List Nat) 30 = ([], 30) := by
  constructor
  · have h := (poll_terminal_and_timeout
        (fun i => if i = 0 then .ok "in_progress" else .ok "failed") [3] 30).2.2.1
        1 "failed" (by omega) (by simp) (by decide) ?_
    · exact h
    · intro i hi
      have : i = 0 := by omega
      subst this
      exact ⟨"in_progress", rfl, by decide, by decide⟩
  · exact (poll_terminal_and_timeout (fun _ => .ok "in_progress") [3] 30).2.2.2
      (fun i _ => ⟨"in_progress", rfl, by decide, by decide⟩)

/-- First-occurrence deduplication emits no duplicates and nothing already
seen. -/
theorem pdUniqueAux_nodup [DecidableEq α] :
    ∀ (xs seen : List α),
      (pdUniqueAux seen xs).Nodup ∧ ∀ a ∈ pdUniqueAux seen xs, a ∉ seen := by
  intro xs
  induction xs with
  | nil => intro seen; exact ⟨List.nodup_nil, by simp [pdUniqueAux]⟩
  | cons x t ih =>
      intro seen
      by_cases hx : x ∈ seen
      · simpa [pdUniqueAux, hx] using ih seen
      · have h := ih (x :: seen)
        refine ⟨?_, ?_⟩
        · simp only [pdUniqueAux, if_neg hx, List.nodup_cons]
          exact ⟨fun hmem => (h.2 x hmem) (List.mem_cons_self x seen), h.1⟩
        · intro a ha
          simp only [pdUniqueAux, if_neg hx, List.mem_cons] at ha
          rcases ha with rfl | ha
          · exact hx
          · exact fun hseen => (h.2 a ha) (List.mem_cons_of_mem x hseen)

/-- C8: `_prepare_data_for_analysis` produces exactly one summary row per
unique `System Name` (in order of first appearance, with no duplicates);
each row's environment-type list is the distinct observed types of that
system, and each presence flag equals membership of the corresponding
literal in that list; in particular a system whose distinct types are
`{DEV, PROD}` gets the flags `(true, false, true)`. -/
theorem prepare_summary_rows :
    ∀ rows : List (String × String),
      ((prepare_data_for_analysis rows).map SummaryRow.systemName
          = pdUnique (rows.map Prod.fst)
        ∧ (pdUnique (rows.map Prod.fst)).Nodup)
      ∧ (∀ s, s ∈ prepare_data_for_analysis rows →
          s.environmentTypes
              = pdUnique ((rows.filter fun r => decide (r.1 = s.systemName)).map Prod.snd)
            ∧ s.hasDEV = decide ("DEV" ∈ s.environmentTypes)
            ∧ s.hasTEST = decide ("TEST" ∈ s.environmentTypes)
            ∧ s.hasPROD = decide ("PROD" ∈ s.environmentTypes))
      ∧ (∀ s, s ∈ prepare_data_for_analysis rows →
          s.environmentTypes = ["DEV", "PROD"] →
          s.hasDEV = true ∧ s.hasTEST = false ∧ s.hasPROD = true) := by
  intro rows
  have hmem : ∀ s, s ∈ prepare_data_for_analysis rows →
      s.environmentTypes
          = pdUnique ((rows.filter fun r => decide (r.1 = s.systemName)).map Prod.snd)
        ∧ s.hasDEV = decide ("DEV" ∈ s.environmentTypes)
        ∧ s.hasTEST = decide ("TEST" ∈ s.environmentTypes)
        ∧ s.hasPROD = decide ("PROD" ∈ s.environmentTypes) := by
    intro s hs
    simp only [prepare_data_for_analysis, List.mem_map] at hs
    obtain ⟨sys, _, rfl⟩ := hs
    exact ⟨rfl, rfl, rfl, rfl⟩
  refine ⟨⟨?_, (pdUniqueAux_nodup _ _).1⟩, hmem, ?_⟩
  · simp only [prepare_data_for_analysis, List.map_map]
    exact List.map_id (pdUnique (rows.map Prod.fst))
  · intro s hs htypes
    obtain ⟨_, hdev, htest, hprod⟩ := hmem s hs
    rw [hdev, htest, hprod, htypes]
    exact ⟨by decide, by decide, by decide⟩

/-- The inventory rows of the spec's end-to-end scenario. -/
def demoRows : List (String × String) :=
  [("SysA", "DEV"), ("SysA", "PROD"), ("SysB", "DEV"), ("SysB", "TEST"), ("SysB", "PROD")]

/-- Witness for C8 on the spec's scenario rows: one summary row per system;
`SysA`, whose distinct types are `{DEV, PROD}`, gets `(true, false,
true)`. -/
theorem c8_witness :
    prepare_data_for_analysis demoRows
      = [⟨"SysA", ["DEV", "PROD"], true, false, true⟩,
         ⟨"SysB", ["DEV", "TEST", "PROD"], true, true, true⟩]
    ∧ ((⟨"SysA", ["DEV", "PROD"], true, false, true⟩ : SummaryRow).hasDEV = true
      ∧ (⟨"SysA", ["DEV", "PROD"], true, false, true⟩ : SummaryRow).hasTEST = false
      ∧ (⟨"SysA", ["DEV", "PROD"], true, false, true⟩ : SummaryRow).hasPROD = true) := by
  refine ⟨rfl, ?_⟩
  refine (prepare_summary_rows demoRows).2.2 _ ?_ rfl
  rw [show prepare_data_for_analysis demoRows
      = [⟨"SysA", ["DEV", "PROD"], true, false, true⟩,
         ⟨"SysB", ["DEV", "TEST", "PROD"], true, true, true⟩] from rfl]
  exact List.mem_cons_self _ _

/-- Input rows for the C9 counterexample: two distinct systems. -/
def c9Data : List (String × String) := [("A", "DEV"), ("B", "PROD")]

/-- Analysis results for the C9 counterexample: a single classification
row (the remote analysis returned fewer records than systems). -/
def c9Results : List ResultRow := [⟨"A", "OK", "fine"⟩]

/-- C9 is false as stated: the saved metadata's `total_records_analyzed` is
the number of classification result rows (`len(self.analysis_results)`),
not the number of unique entities of the input rows — here the save
succeeds with one result row against two unique input systems. -/
theorem c9_counterexample :
    save_analysis_results c9Data c9Results (some "f.xlsx") "user" "2026-10-12 00:00:00"
      = some [("Cloud_Resource_Inventory", .inventory c9Data),
              ("Cloud_Resource_Deviation_Analysis", .analysis c9Results),
              ("Metadata", .metadata
                (create_metadata c9Results "user" "2026-10-12 00:00:00" "f.xlsx"))]
    ∧ metaLookup (create_metadata c9Results "user" "2026-10-12 00:00:00" "f.xlsx")
        "total_records_analyzed" = some (.natVal 1)
    ∧ (pdUnique (c9Data.map Prod.fst)).length = 2
    ∧ (1 : Nat) ≠ 2 := by
  exact ⟨rfl, rfl, rfl, by decide⟩

/-- C9 (amended): every successful save yields exactly the three documented
sheets in order — raw input inventory, classification results, metadata —
and the metadata's `total_records_analyzed` equals the number of
classification result rows (which coincides with the unique-entity count of
the input only when the analysis produced exactly one row per entity). -/
theorem save_three_sheets_and_total :
    ∀ (cloudData : List (String × String)) (results : List ResultRow)
      (inputFile : Option String) (userName timestamp : String)
      (wb : List (String × Sheet)),
      save_analysis_results cloudData results inputFile userName timestamp = some wb →
      wb.map Prod.fst
          = ["Cloud_Resource_Inventory", "Cloud_Resource_Deviation_Analysis", "Metadata"]
      ∧ ∃ f, inputFile = some f
          ∧ wb = [("Cloud_Resource_Inventory", .inventory cloudData),
                  ("Cloud_Resource_Deviation_Analysis", .analysis results),
                  ("Metadata", .metadata (create_metadata results userName timestamp f))]
          ∧ metaLookup (create_metadata results userName timestamp f)
              "total_records_analyzed" = some (.natVal results.length) := by
  intro cloudData results inputFile userName timestamp wb hsave
  simp only [save_analysis_results] at hsave
  by_cases hres : results.isEmpty
  · rw [if_pos hres] at hsave; cases hsave
  · rw [if_neg hres] at hsave
    match hf : inputFile with
    | none => cases hsave
    | some f =>
        simp only [] at hsave
        by_cases hfe : f = ""
        · rw [if_pos hfe] at hsave; cases hsave
        · rw [if_neg hfe] at hsave
          by_cases hall : cloudData.all fun r => r.1 = "" ∧ r.2 = ""
          · rw [if_pos hall] at hsave; cases hsave
          · rw [if_neg hall] at hsave
            cases hsave
            exact ⟨rfl, f, rfl, rfl, rfl⟩

/-- Witness for the amended C9 at a concrete successful save. -/
theorem c9_witness :
    save_analysis_results c9Data c9Results (some "f.xlsx") "user" "ts"
      = some [("Cloud_Resource_Inventory", .inventory c9Data),
              ("Cloud_Resource_Deviation_Analysis", .analysis c9Results),
              ("Metadata", .metadata (create_metadata c9Results "user" "ts" "f.xlsx"))]
    ∧ ([("Cloud_Resource_Inventory", Sheet.inventory c9Data),
        ("Cloud_Resource_Deviation_Analysis", .analysis c9Results),
        ("Metadata", .metadata (create_metadata c9Results "user" "ts" "f.xlsx"))].map
          Prod.fst)
        = ["Cloud_Resource_Inventory", "Cloud_Resource_Deviation_Analysis", "Metadata"] := by
  refine ⟨rfl, ?_⟩
  exact (save_three_sheets_and_total c9Data c9Results (some "f.xlsx") "user" "ts" _ rfl).1

/-- The fenced-pattern attempt fails at any position that does not start
with three backticks. -/
theorem tryFencedAt_none_of_noTicks (cs : List Char) (h : startsWithTicks cs = false) :
    tryFencedAt cs = none := by
  unfold tryFencedAt
  split
  · rename_i heq
    rw [show startsWithTicks ('`' :: '`' :: '`' :: 'j' :: 's' :: 'o' :: 'n' :: _) = true
        from rfl] at h
    cases h
  · rfl

/-- A successful fenced-block search implies the text contains three
consecutive backticks. -/
theorem fencedSearchAux_some_ticks :
    ∀ (fuel : Nat) (cs : List Char) (g : List Char),
      fencedSearchAux fuel cs = some g → containsTicks cs = true := by
  intro fuel
  induction fuel with
  | zero => intro cs g h; cases h
  | succ n ih =>
      intro cs g h
      cases cs with
      | nil => cases h
      | cons c rest =>
          by_cases hst : startsWithTicks (c :: rest) = true
          · simp [containsTicks, hst]
          · have hnone := tryFencedAt_none_of_noTicks (c :: rest)
              (Bool.not_eq_true _ ▸ hst)
            simp only [fencedSearchAux, hnone] at h
            simp [containsTicks, ih rest g h]

/-- When the stripped text has no triple backtick, the fenced search finds
nothing. -/
theorem fencedSearch_none_of_noTicks (cs : List Char) (h : containsTicks cs = false) :
    fencedSearch cs = none := by
  rcases heq : fencedSearch cs with _ | g
  · rfl
  · rw [fencedSearchAux_some_ticks _ _ _ heq] at h
    cases h

/-- Counterexample text for C10: maximal backtick runs of length 5 and 4
defeat the global stripping. -/
def c10Text : String := "````` ````json [1, 2] ````` ````"

/-- C10 is false as stated: on `c10Text` the global substitution leaves a
stripped text that still contains ```` ``` ```` markers, the fenced-block
search matches it with group `[1, 2]`, and the extractor (which returns
that array) differs from the variant with the fenced branch removed (which
returns the empty list — the stripped text has no brace, and as a whole it
is not JSON). -/
theorem c10_counterexample :
    containsTicks (pyFenceSub c10Text.data) = true
    ∧ fencedSearch (pyFenceSub c10Text.data) = some "[1, 2]".data
    ∧ extract_json_from_text c10Text.data = .arr [.num ['1'], .num ['2']]
    ∧ extract_json_noFence c10Text.data = .arr []
    ∧ JsonVal.arr [.num ['1'], .num ['2']] ≠ .arr [] := by
  refine ⟨rfl, rfl, rfl, rfl, ?_⟩
  simp

/-- C10 (amended): the global fence-stripping does not remove every
```` ``` ```` marker (`c10_counterexample`), so the fenced branch is
reachable; but whenever the stripped text contains no three consecutive
backticks — in particular for ordinary texts whose backtick runs are
exactly the fence markers — the fenced search cannot match and the
extractor agrees with the variant whose candidate comes only from the bare
array scan, the bare object scan, or the whole-text parse. -/
theorem extract_noFence_agrees :
    ∀ text : List Char, containsTicks (pyFenceSub text) = false →
      extract_json_from_text text = extract_json_noFence text := by
  intro text h
  have hf : fencedSearch (pyFenceSub text) = none := fencedSearch_none_of_noTicks _ h
  simp only [extract_json_from_text, extract_json_noFence, candidateOf,
    candidateOfNoFence, hf]

/-- Witness for the amended C10 on a typically fenced response text. -/
theorem c10_witness :
    containsTicks (pyFenceSub "```json\n[\x7b\"a\": 1\x7d]\n```".data) = false
    ∧ extract_json_from_text "```json\n[\x7b\"a\": 1\x7d]\n```".data
        = extract_json_noFence "```json\n[\x7b\"a\": 1\x7d]\n```".data
    ∧ extract_json_noFence "```json\n[\x7b\"a\": 1\x7d]\n```".data
        = .arr [.obj [(strCodes "a", .num ['1'])]] :=
  ⟨rfl, extract_noFence_agrees _ rfl, rfl⟩
